import Mathlib

/-!
Verification of the cart state container of the `atorji` storefront
(`frontend/features/cart/CartContext.tsx` and
`frontend/shared/utils/storage.ts`), embedded shallowly: JavaScript
numbers are modelled as `Int` (quantities, `totalItems`) and `ℚ`
(prices, `totalPrice`); the JSON layer of the key-value persistence is
modelled as a structured `Json` tree.
-/

/-- Gender tag of a product (`'male' | 'female' | 'unisex'` in
`shared/types`). -/
inductive Gender where
  | male
  | female
  | unisex
  deriving DecidableEq, Repr

/-- The `notes` payload of a product (`shared/types`, `Product.notes`). -/
structure ProductNotes where
  top : List String
  middle : List String
  base : List String
  deriving DecidableEq, Repr

/-- `Product` from `shared/types`: the cart core interprets `id`,
`price` and `inStock`; the remaining fields are opaque payload. -/
structure Product where
  id : String
  name : String
  brand : String
  price : ℚ
  image : String
  description : String
  size : String
  notes : ProductNotes
  gender : Gender
  rating : ℚ
  inStock : Bool
  deriving DecidableEq, Repr

/-- `CartItem` from `shared/types`: one product paired with a quantity. -/
structure CartItem where
  product : Product
  quantity : Int
  deriving DecidableEq, Repr

/-- `CartState` from `CartContext.tsx` (lines 22-27). -/
structure CartState where
  items : List CartItem
  totalItems : Int
  totalPrice : ℚ
  isLoading : Bool
  deriving DecidableEq, Repr

/-- The tagged union `CartAction` (`CartContext.tsx`, lines 13-19). -/
inductive CartAction where
  | addItem (payload : Product)
  | removeItem (payload : String)
  | updateQuantity (productId : String) (quantity : Int)
  | clearCart
  | loadCart (payload : List CartItem)
  | setLoading (payload : Bool)

/-- `initialState` (`CartContext.tsx`, lines 40-45). -/
def initialState : CartState :=
  { items := [], totalItems := 0, totalPrice := 0, isLoading := true }

/-- The inline reduce `newItems.reduce((sum, item) => sum + item.quantity, 0)`
recomputing `totalItems`. -/
def sumQuantities (items : List CartItem) : Int :=
  items.foldl (fun sum item => sum + item.quantity) 0

/-- The inline reduce
`newItems.reduce((sum, item) => sum + item.product.price * item.quantity, 0)`
recomputing `totalPrice`. -/
def sumPrices (items : List CartItem) : ℚ :=
  items.foldl (fun sum item => sum + item.product.price * (item.quantity : ℚ)) 0

/-- The common `return { ...state, items: newItems, totalItems: ...,
totalPrice: ... }` block shared by the `ADD_ITEM`, `REMOVE_ITEM` and
`UPDATE_QUANTITY` cases of the reducer. -/
def withItems (state : CartState) (newItems : List CartItem) : CartState :=
  { state with
      items := newItems
      totalItems := sumQuantities newItems
      totalPrice := sumPrices newItems }

/-- `cartReducer` (`CartContext.tsx`, lines 51-151).  The
`UPDATE_QUANTITY` case with `quantity <= 0` delegates to the
`REMOVE_ITEM` case in the source (a recursive call on the same state);
here that shared case body is written out once in both places. -/
def cartReducer (state : CartState) (action : CartAction) : CartState :=
  match action with
  | CartAction.addItem payload =>
      match state.items.find? (fun item => item.product.id == payload.id) with
      | some _ =>
          withItems state (state.items.map (fun item =>
            if item.product.id == payload.id then
              { item with quantity := item.quantity + 1 }
            else item))
      | none =>
          withItems state (state.items ++ [{ product := payload, quantity := 1 }])
  | CartAction.removeItem payload =>
      withItems state (state.items.filter (fun item => item.product.id != payload))
  | CartAction.updateQuantity productId quantity =>
      if quantity ≤ 0 then
        withItems state (state.items.filter (fun item => item.product.id != productId))
      else
        withItems state (state.items.map (fun item =>
          if item.product.id == productId then { item with quantity := quantity }
          else item))
  | CartAction.clearCart =>
      { state with items := [], totalItems := 0, totalPrice := 0 }
  | CartAction.loadCart payload =>
      { state with
          items := payload
          totalItems := sumQuantities payload
          totalPrice := sumPrices payload
          isLoading := false }
  | CartAction.setLoading payload =>
      { state with isLoading := payload }

/-- Error taxonomy of `shared/utils/errors` (only the constructors the
cart core uses are relevant). -/
inductive ErrorType where
  | network
  | validation
  | notFound
  | unauthorized
  | forbidden
  | server
  | timeout
  | unknown
  deriving DecidableEq, Repr

/-- An error reported to the logging channel (`createError` +
`logError`). -/
structure AppError where
  type : ErrorType
  message : String
  deriving DecidableEq, Repr

/-- `createError` from `shared/utils/errors`. -/
def createError (t : ErrorType) (message : String) : AppError :=
  { type := t, message := message }

/-- The public `addItem` action (`CartContext.tsx`, lines 191-200):
rejects out-of-stock products, logging a validation error and leaving
the state untouched; otherwise dispatches `ADD_ITEM`.  The second
component is the list of errors sent to the logging channel. -/
def addItem (state : CartState) (product : Product) : CartState × List AppError :=
  if !product.inStock then
    (state, [createError ErrorType.validation "Cannot add out-of-stock item"])
  else
    (cartReducer state (CartAction.addItem product), [])

/-- The public `removeItem` action (`CartContext.tsx`, lines 202-204). -/
def removeItem (state : CartState) (productId : String) : CartState :=
  cartReducer state (CartAction.removeItem productId)

/-- The public `updateQuantity` action (`CartContext.tsx`, lines
206-215): rejects negative quantities, logging a validation error and
leaving the state untouched; otherwise dispatches `UPDATE_QUANTITY`. -/
def updateQuantity (state : CartState) (productId : String) (quantity : Int) :
    CartState × List AppError :=
  if quantity < 0 then
    (state, [createError ErrorType.validation "Quantity cannot be negative"])
  else
    (cartReducer state (CartAction.updateQuantity productId quantity), [])

/-- The public `clearCart` action (`CartContext.tsx`, lines 217-219). -/
def clearCart (state : CartState) : CartState :=
  cartReducer state CartAction.clearCart

/-- `getItemQuantity` (`CartContext.tsx`, lines 221-227). -/
def getItemQuantity (state : CartState) (productId : String) : Int :=
  match state.items.find? (fun item => item.product.id == productId) with
  | some item => item.quantity
  | none => 0

/-- `isInCart` (`CartContext.tsx`, lines 229-234). -/
def isInCart (state : CartState) (productId : String) : Bool :=
  state.items.any (fun item => item.product.id == productId)

/-- One call of the public mutating API, for reasoning about call
sequences. -/
inductive CartCall where
  | addItem (product : Product)
  | removeItem (productId : String)
  | updateQuantity (productId : String) (quantity : Int)
  | clearCart

/-- Apply one public call to a state (logged errors discarded). -/
def applyCall (state : CartState) (call : CartCall) : CartState :=
  match call with
  | CartCall.addItem p => (addItem state p).1
  | CartCall.removeItem productId => removeItem state productId
  | CartCall.updateQuantity productId q => (updateQuantity state productId q).1
  | CartCall.clearCart => clearCart state

/-- Apply a sequence of public calls, left to right. -/
def runCalls (state : CartState) (calls : List CartCall) : CartState :=
  calls.foldl applyCall state

/-- The derived-aggregates invariant of spec section 3: `totalItems`
and `totalPrice` agree with the sums over `items`. -/
def totalsOk (state : CartState) : Prop :=
  state.totalItems = sumQuantities state.items ∧
  state.totalPrice = sumPrices state.items

theorem totalsOk_initial : totalsOk initialState := by
  constructor <;> rfl

theorem totalsOk_applyCall (state : CartState) (call : CartCall)
    (h : totalsOk state) : totalsOk (applyCall state call) := by
  cases call with
  | addItem p =>
      by_cases hs : p.inStock = true
      · simp only [applyCall, addItem, hs]
        cases hfind : state.items.find? (fun item => item.product.id == p.id) <;>
          simp [cartReducer, hfind, withItems, totalsOk]
      · simp only [Bool.not_eq_true] at hs
        simpa [applyCall, addItem, hs] using h
  | removeItem productId =>
      simp [applyCall, removeItem, cartReducer, withItems, totalsOk]
  | updateQuantity productId q =>
      by_cases hq : q < 0
      · simpa [applyCall, updateQuantity, hq] using h
      · by_cases hz : q ≤ 0 <;>
          simp [applyCall, updateQuantity, hq, cartReducer, hz, withItems, totalsOk]
  | clearCart =>
      simp [applyCall, clearCart, cartReducer, totalsOk, sumQuantities, sumPrices]

/-- Claim C1: after every sequence of public `addItem` / `removeItem` /
`updateQuantity` / `clearCart` calls starting from the initial empty
cart, `totalItems` equals the sum of the line quantities and
`totalPrice` equals the sum of price times quantity over the lines.
Since this holds for every sequence, it holds after each call of any
sequence. -/
theorem totals_invariant_after_every_call (calls : List CartCall) :
    totalsOk (runCalls initialState calls) := by
  suffices h : ∀ (s : CartState), totalsOk s → totalsOk (runCalls s calls) from
    h initialState totalsOk_initial
  induction calls with
  | nil => intro s hs; simpa [runCalls] using hs
  | cons c cs ih =>
      intro s hs
      have h1 : totalsOk (applyCall s c) := totalsOk_applyCall s c hs
      simpa [runCalls] using ih (applyCall s c) h1

/-- Product `"1"` of `data/products.ts` ("Noir Essence"), the in-stock
product of the spec's example scenario (price 129.99). -/
def noirEssence : Product :=
  { id := "1"
    name := "Noir Essence"
    brand := "Luxe Parfums"
    price := 129.99
    image := "https://images.unsplash.com/photo-1541643600914-78b084683601?w=400&h=600&fit=crop"
    description := "A sophisticated blend of dark woods and subtle spices, perfect for evening wear."
    size := "100ml"
    notes :=
      { top := ["Bergamot", "Black Pepper", "Cardamom"]
        middle := ["Lavender", "Iris", "Geranium"]
        base := ["Cedarwood", "Vetiver", "Amber"] }
    gender := Gender.male
    rating := 4.8
    inStock := true }

/-- Product `"8"` of `data/products.ts` ("White Tea Blossom"), the only
out-of-stock product of the catalog. -/
def whiteTeaBlossom : Product :=
  { id := "8"
    name := "White Tea Blossom"
    brand := "Zen Garden"
    price := 89.99
    image := "https://images.unsplash.com/photo-1528821154947-1aa3d1b74941?w=400&h=600&fit=crop"
    description := "Delicate and serene, a calming blend of white tea and soft florals."
    size := "75ml"
    notes :=
      { top := ["White Tea", "Mandarin", "Ginger"]
        middle := ["Cherry Blossom", "Freesia", "White Rose"]
        base := ["Musk", "Cedarwood", "Amber"] }
    gender := Gender.female
    rating := 4.8
    inStock := false }

/-- Claim C10: each of the four public mutating operations (`addItem`,
`removeItem`, `updateQuantity`, `clearCart`) leaves the `isLoading`
flag unchanged, in every state; only the hydration actions `LOAD_CART`
and `SET_LOADING` write that field. -/
theorem mutating_calls_preserve_isLoading (state : CartState) (call : CartCall) :
    (applyCall state call).isLoading = state.isLoading := by
  cases call with
  | addItem p =>
      by_cases hs : p.inStock = true
      · simp only [applyCall, addItem, hs]
        cases hfind : state.items.find? (fun item => item.product.id == p.id) <;>
          simp [cartReducer, hfind, withItems]
      · simp only [Bool.not_eq_true] at hs
        simp [applyCall, addItem, hs]
  | removeItem productId =>
      simp [applyCall, removeItem, cartReducer, withItems]
  | updateQuantity productId q =>
      by_cases hq : q < 0
      · simp [applyCall, updateQuantity, hq]
      · by_cases hz : q ≤ 0 <;>
          simp [applyCall, updateQuantity, hq, cartReducer, hz, withItems]
  | clearCart =>
      simp [applyCall, clearCart, cartReducer]

/-- Claim C4: adding a product with `inStock = false` leaves the entire
cart state unchanged and reports exactly one validation failure to the
error channel; `addItem` is a total function into `CartState × List
AppError`, so no exception reaches the caller. -/
theorem addItem_out_of_stock_noop (state : CartState) (P : Product)
    (h : P.inStock = false) :
    addItem state P =
      (state, [createError ErrorType.validation "Cannot add out-of-stock item"]) := by
  simp [addItem, h]

theorem addItem_out_of_stock_noop_witness :
    whiteTeaBlossom.inStock = false ∧
      addItem initialState whiteTeaBlossom =
        (initialState, [createError ErrorType.validation "Cannot add out-of-stock item"]) :=
  ⟨rfl, addItem_out_of_stock_noop initialState whiteTeaBlossom rfl⟩

/-- Claim C5: for every state and product identifier,
`updateQuantity(id, 0)` produces exactly the cart state that
`removeItem(id)` produces (same lines, same `totalItems`, same
`totalPrice`). -/
theorem updateQuantity_zero_eq_removeItem (state : CartState) (productId : String) :
    (updateQuantity state productId 0).1 = removeItem state productId := by
  simp [updateQuantity, removeItem, cartReducer]

/-- Claim C6: `updateQuantity` with a negative quantity leaves the
state unchanged and reports exactly one validation failure to the error
channel; the function is total, so no exception reaches the caller. -/
theorem updateQuantity_negative_rejected (state : CartState) (productId : String)
    (q : Int) (h : q < 0) :
    updateQuantity state productId q =
      (state, [createError ErrorType.validation "Quantity cannot be negative"]) := by
  simp [updateQuantity, h]

theorem updateQuantity_negative_rejected_witness :
    (-1 : Int) < 0 ∧
      updateQuantity initialState "1" (-1) =
        (initialState, [createError ErrorType.validation "Quantity cannot be negative"]) :=
  ⟨by decide, updateQuantity_negative_rejected initialState "1" (-1) (by decide)⟩

theorem map_ite_id_of_no_match (l : List CartItem) (pid : String)
    (f : CartItem → CartItem) (h : ∀ x ∈ l, x.product.id ≠ pid) :
    (l.map fun item => if item.product.id == pid then f item else item) = l := by
  induction l with
  | nil => rfl
  | cons a t ih =>
      have ha : (a.product.id == pid) = false := by
        simpa using h a (List.mem_cons_self a t)
      simp only [List.map_cons, ha, Bool.false_eq_true, if_false]
      rw [ih (fun x hx => h x (List.mem_cons_of_mem a hx))]

theorem map_ite_surgery (pre post : List CartItem) (item : CartItem) (pid : String)
    (f : CartItem → CartItem)
    (hitem : item.product.id = pid)
    (hpre : ∀ x ∈ pre, x.product.id ≠ pid)
    (hpost : ∀ x ∈ post, x.product.id ≠ pid) :
    ((pre ++ item :: post).map fun it => if it.product.id == pid then f it else it) =
      pre ++ f item :: post := by
  rw [List.map_append, List.map_cons]
  rw [map_ite_id_of_no_match pre pid f hpre, map_ite_id_of_no_match post pid f hpost]
  simp [hitem]

theorem find?_ne_none_of_mem (l : List CartItem) (pid : String) (item : CartItem)
    (hmem : item ∈ l) (hid : item.product.id = pid) :
    l.find? (fun it => it.product.id == pid) ≠ none := by
  intro hnone
  rw [List.find?_eq_none] at hnone
  exact absurd (by simp [hid]) (hnone item hmem)

/-- What claim C3 asserts of `addItem` on an in-stock product: a product
with no line is appended at the end with quantity 1 (other lines and
their order untouched); a product that already has a line gets that
line's quantity incremented by 1 in place (all other lines and the
order untouched); and two `addItem`s of the same product from the empty
cart yield the single line (product, 2). -/
def addItemSpec (state : CartState) (P : Product) : Prop :=
  (isInCart state P.id = false →
    (addItem state P).1.items = state.items ++ [{ product := P, quantity := 1 }]) ∧
  (∀ pre item post,
    state.items = pre ++ item :: post →
    item.product.id = P.id →
    (∀ x ∈ pre, x.product.id ≠ P.id) →
    (∀ x ∈ post, x.product.id ≠ P.id) →
    (addItem state P).1.items =
      pre ++ { item with quantity := item.quantity + 1 } :: post) ∧
  (applyCall (applyCall initialState (CartCall.addItem P)) (CartCall.addItem P)).items =
    [{ product := P, quantity := 2 }]

/-- Claim C3: `addItem` of an in-stock product appends a fresh line
with quantity 1 when the product has no line, increments the existing
line in place otherwise, never disturbing other lines or their order;
twice from empty gives one line with quantity 2. -/
theorem addItem_appends_or_increments (state : CartState) (P : Product)
    (hStock : P.inStock = true) : addItemSpec state P := by
  refine ⟨?_, ?_, ?_⟩
  · intro hnot
    simp only [isInCart, List.any_eq_false] at hnot
    have hfind : state.items.find? (fun item => item.product.id == P.id) = none := by
      rw [List.find?_eq_none]
      exact hnot
    simp [addItem, hStock, cartReducer, hfind, withItems]
  · intro pre item post hsplit hid hpre hpost
    have hmem : item ∈ state.items := by
      rw [hsplit]
      exact List.mem_append_right _ (List.mem_cons_self _ _)
    have hne : state.items.find? (fun it => it.product.id == P.id) ≠ none :=
      find?_ne_none_of_mem _ _ item hmem hid
    cases hf : state.items.find? (fun it => it.product.id == P.id) with
    | none => exact absurd hf hne
    | some found =>
        simp only [addItem, hStock, Bool.not_true, cartReducer, hf, withItems]
        rw [hsplit]
        exact map_ite_surgery pre post item P.id
          (fun it => { it with quantity := it.quantity + 1 }) hid hpre hpost
  · simp [applyCall, addItem, hStock, cartReducer, initialState, withItems]

theorem addItem_appends_or_increments_witness :
    noirEssence.inStock = true ∧ addItemSpec initialState noirEssence :=
  ⟨rfl, addItem_appends_or_increments initialState noirEssence rfl⟩

/-- What claim C7 asserts of `updateQuantity` with a positive quantity:
it never creates a line (no-op when the identifier has no line), and on
an existing line it sets the quantity to exactly the given value,
leaving every other line and the order untouched. -/
def updateQuantitySpec (state : CartState) (productId : String) (q : Int) : Prop :=
  (isInCart state productId = false →
    (updateQuantity state productId q).1.items = state.items) ∧
  (∀ pre item post,
    state.items = pre ++ item :: post →
    item.product.id = productId →
    (∀ x ∈ pre, x.product.id ≠ productId) →
    (∀ x ∈ post, x.product.id ≠ productId) →
    (updateQuantity state productId q).1.items =
      pre ++ { item with quantity := q } :: post)

/-- Claim C7: for a positive quantity, `updateQuantity` on an absent
identifier leaves the lines unchanged, and on a present identifier sets
that line's quantity to exactly the given value, all other lines and
the order unchanged. -/
theorem updateQuantity_sets_exactly (state : CartState) (productId : String)
    (q : Int) (hq : 0 < q) : updateQuantitySpec state productId q := by
  have hneg : ¬ q < 0 := by omega
  have hle : ¬ q ≤ 0 := by omega
  refine ⟨?_, ?_⟩
  · intro hnot
    simp only [isInCart, List.any_eq_false] at hnot
    simp only [updateQuantity, hneg, if_false, cartReducer, hle, withItems]
    exact map_ite_id_of_no_match state.items productId _ (by
      intro x hx hxeq
      exact hnot x hx (by simp [hxeq]))
  · intro pre item post hsplit hid hpre hpost
    simp only [updateQuantity, hneg, if_false, cartReducer, hle, withItems]
    rw [hsplit]
    exact map_ite_surgery pre post item productId
      (fun it => { it with quantity := q }) hid hpre hpost

theorem updateQuantity_sets_exactly_witness :
    (0 : Int) < 5 ∧ updateQuantitySpec initialState "1" 5 :=
  ⟨by decide, updateQuantity_sets_exactly initialState "1" 5 (by decide)⟩

/-- Claim C9: the spec's example scenario, for every choice of the
opaque payload fields of the product with identifier "1", price 129.99
and `inStock = true`: one `addItem` gives totals (1, 129.99), a second
gives (2, 259.98), `updateQuantity("1", 5)` gives (5, 649.95), and
`removeItem("1")` gives (0, 0). -/
theorem example_scenario (name brand image description size : String)
    (notes : ProductNotes) (gender : Gender) (rating : ℚ) :
    let P : Product :=
      { id := "1", name := name, brand := brand, price := 129.99, image := image,
        description := description, size := size, notes := notes, gender := gender,
        rating := rating, inStock := true }
    let s1 := applyCall initialState (CartCall.addItem P)
    let s2 := applyCall s1 (CartCall.addItem P)
    let s3 := applyCall s2 (CartCall.updateQuantity "1" 5)
    let s4 := applyCall s3 (CartCall.removeItem "1")
    (s1.totalItems = 1 ∧ s1.totalPrice = 129.99) ∧
    (s2.totalItems = 2 ∧ s2.totalPrice = 259.98) ∧
    (s3.totalItems = 5 ∧ s3.totalPrice = 649.95) ∧
    (s4.totalItems = 0 ∧ s4.totalPrice = 0) := by
  norm_num [applyCall, addItem, removeItem, updateQuantity, clearCart, cartReducer,
    initialState, withItems, sumQuantities, sumPrices]

/-- A structured JSON value: the shallow model of what
`storage.setItem` writes (`JSON.stringify`) and `storage.getItem`
re-reads (`JSON.parse`); the string layer of the key-value store is
modelled by storing the structured value itself. -/
inductive Json where
  | null
  | bool (b : Bool)
  | num (q : ℚ)
  | str (s : String)
  | arr (elems : List Json)
  | obj (fields : List (String × Json))

/-- Look a field up in a JSON object. -/
def Json.getField : Json → String → Option Json
  | Json.obj fields, key => (fields.find? (fun f => f.1 == key)).map (fun f => f.2)
  | _, _ => none

/-- Decode every element of a JSON array, failing if any element
fails. -/
def decodeList {α : Type} (dec : Json → Option α) : List Json → Option (List α)
  | [] => some []
  | j :: rest => do
      let a ← dec j
      let as ← decodeList dec rest
      pure (a :: as)

def encodeGender : Gender → Json
  | Gender.male => Json.str "male"
  | Gender.female => Json.str "female"
  | Gender.unisex => Json.str "unisex"

def decodeGender : Json → Option Gender
  | Json.str "male" => some Gender.male
  | Json.str "female" => some Gender.female
  | Json.str "unisex" => some Gender.unisex
  | _ => none

def decodeString : Json → Option String
  | Json.str s => some s
  | _ => none

def decodeNum : Json → Option ℚ
  | Json.num q => some q
  | _ => none

def decodeBool : Json → Option Bool
  | Json.bool b => some b
  | _ => none

/-- Decode a JSON number that must be an integer (a quantity). -/
def decodeInt : Json → Option Int
  | Json.num q => if q.den = 1 then some q.num else none
  | _ => none

def encodeStringList (xs : List String) : Json :=
  Json.arr (xs.map Json.str)

def decodeStringList : Json → Option (List String)
  | Json.arr elems => decodeList decodeString elems
  | _ => none

def encodeNotes (n : ProductNotes) : Json :=
  Json.obj [("top", encodeStringList n.top), ("middle", encodeStringList n.middle),
    ("base", encodeStringList n.base)]

def decodeNotes (j : Json) : Option ProductNotes := do
  let top ← (j.getField "top").bind decodeStringList
  let middle ← (j.getField "middle").bind decodeStringList
  let base ← (j.getField "base").bind decodeStringList
  pure { top := top, middle := middle, base := base }

/-- The JSON object a `Product` serializes to. -/
def encodeProduct (p : Product) : Json :=
  Json.obj [("id", Json.str p.id), ("name", Json.str p.name),
    ("brand", Json.str p.brand), ("price", Json.num p.price),
    ("image", Json.str p.image), ("description", Json.str p.description),
    ("size", Json.str p.size), ("notes", encodeNotes p.notes),
    ("gender", encodeGender p.gender), ("rating", Json.num p.rating),
    ("inStock", Json.bool p.inStock)]

def decodeProduct (j : Json) : Option Product := do
  let id ← (j.getField "id").bind decodeString
  let name ← (j.getField "name").bind decodeString
  let brand ← (j.getField "brand").bind decodeString
  let price ← (j.getField "price").bind decodeNum
  let image ← (j.getField "image").bind decodeString
  let description ← (j.getField "description").bind decodeString
  let size ← (j.getField "size").bind decodeString
  let notes ← (j.getField "notes").bind decodeNotes
  let gender ← (j.getField "gender").bind decodeGender
  let rating ← (j.getField "rating").bind decodeNum
  let inStock ← (j.getField "inStock").bind decodeBool
  pure (Product.mk id name brand price image description size notes gender
    rating inStock)

/-- The JSON object a `CartItem` serializes to (full product payload
plus quantity). -/
def encodeCartItem (item : CartItem) : Json :=
  Json.obj [("product", encodeProduct item.product),
    ("quantity", Json.num (item.quantity : ℚ))]

def decodeCartItem (j : Json) : Option CartItem := do
  let product ← (j.getField "product").bind decodeProduct
  let quantity ← (j.getField "quantity").bind decodeInt
  pure { product := product, quantity := quantity }

/-- The persisted snapshot of the cart: the JSON array of the lines. -/
def encodeCartItems (items : List CartItem) : Json :=
  Json.arr (items.map encodeCartItem)

def decodeCartItems : Json → Option (List CartItem)
  | Json.arr elems => decodeList decodeCartItem elems
  | _ => none

theorem decodeGender_encode (g : Gender) : decodeGender (encodeGender g) = some g := by
  cases g <;> rfl

theorem decodeStringList_encode (xs : List String) :
    decodeStringList (encodeStringList xs) = some xs := by
  simp only [encodeStringList, decodeStringList]
  induction xs with
  | nil => rfl
  | cons a t ih => simp [decodeList, decodeString, ih]

theorem decodeNotes_encode (n : ProductNotes) :
    decodeNotes (encodeNotes n) = some n := by
  cases n
  simp [encodeNotes, decodeNotes, Json.getField, decodeStringList_encode]

theorem decodeProduct_encode (p : Product) :
    decodeProduct (encodeProduct p) = some p := by
  cases p
  simp [encodeProduct, decodeProduct, Json.getField, decodeString, decodeNum,
    decodeBool, decodeNotes_encode, decodeGender_encode]

theorem decodeCartItem_encode (item : CartItem) :
    decodeCartItem (encodeCartItem item) = some item := by
  cases item
  simp [encodeCartItem, decodeCartItem, Json.getField, decodeProduct_encode,
    decodeInt, Rat.den_intCast, Rat.num_intCast]

theorem decodeCartItems_encode (items : List CartItem) :
    decodeCartItems (encodeCartItems items) = some items := by
  simp only [encodeCartItems, decodeCartItems]
  induction items with
  | nil => rfl
  | cons a t ih => simp [decodeList, decodeCartItem_encode, ih]

/-- The device key-value store (`AsyncStorage`), JSON-valued. -/
abbrev Storage := List (String × Json)

/-- `storage.setItem` (`shared/utils/storage.ts`, lines 13-25),
successful path: serialize and write under the key. -/
def storageSetItem (store : Storage) (key : String) (value : Json) : Storage :=
  (key, value) :: store

/-- `storage.getItem` (`shared/utils/storage.ts`, lines 30-41),
successful path: read and parse the value under the key, `none` when
absent. -/
def storageGetItem (store : Storage) (key : String) : Option Json :=
  (store.find? (fun e => e.1 == key)).map (fun e => e.2)

/-- `STORAGE_KEYS.CART` from `shared/constants/config`. -/
def STORAGE_KEYS_CART : String := "@perfume_store/cart"

/-- The `loadCart` hydration effect of `CartProvider`
(`CartContext.tsx`, lines 162-181): read the persisted snapshot under
the cart key; adopt it via `LOAD_CART` when present (in the source an
empty array is truthy and also goes through `LOAD_CART`), otherwise
just clear the loading flag via `SET_LOADING`. -/
def hydrate (store : Storage) (state : CartState) : CartState :=
  match (storageGetItem store STORAGE_KEYS_CART).bind decodeCartItems with
  | some savedCart => cartReducer state (CartAction.loadCart savedCart)
  | none => cartReducer state (CartAction.setLoading false)

/-- The save effect of `CartProvider` (`CartContext.tsx`, lines
184-188): when not loading, persist the current lines under the cart
key. -/
def persistCart (state : CartState) (store : Storage) : Storage :=
  if state.isLoading then store
  else storageSetItem store STORAGE_KEYS_CART (encodeCartItems state.items)

/-- Claim C8: persisting a (hydrated) cart state's lines and then
hydrating a fresh store from the resulting storage reproduces lines
equal to the original — same products, same quantities, same order. -/
theorem persist_hydrate_roundtrip (state : CartState) (store : Storage)
    (h : state.isLoading = false) :
    (hydrate (persistCart state store) initialState).items = state.items := by
  simp [persistCart, h, hydrate, storageSetItem, storageGetItem,
    decodeCartItems_encode, cartReducer]

theorem persist_hydrate_roundtrip_witness :
    (cartReducer initialState
        (CartAction.loadCart [{ product := noirEssence, quantity := 2 }])).isLoading
      = false ∧
    (hydrate
        (persistCart
          (cartReducer initialState
            (CartAction.loadCart [{ product := noirEssence, quantity := 2 }])) [])
        initialState).items
      = (cartReducer initialState
          (CartAction.loadCart [{ product := noirEssence, quantity := 2 }])).items :=
  ⟨rfl, persist_hydrate_roundtrip
    (cartReducer initialState
      (CartAction.loadCart [{ product := noirEssence, quantity := 2 }])) [] rfl⟩

/-- The data-model invariant of spec section 3 on the lines: every
quantity is at least 1 and the product identifiers are pairwise
distinct. -/
def linesOk (items : List CartItem) : Prop :=
  (∀ item ∈ items, 1 ≤ item.quantity) ∧
  (items.map (fun item => item.product.id)).Nodup

theorem linesOk_filter (items : List CartItem) (p : CartItem → Bool)
    (h : linesOk items) : linesOk (items.filter p) := by
  constructor
  · intro item hmem
    exact h.1 item (List.mem_of_mem_filter hmem)
  · exact h.2.sublist (List.Sublist.map _ (List.filter_sublist items))

theorem linesOk_map_ite (items : List CartItem) (pid : String)
    (f : CartItem → CartItem)
    (hprod : ∀ it, (f it).product = it.product)
    (hq : ∀ it, 1 ≤ it.quantity → 1 ≤ (f it).quantity)
    (h : linesOk items) :
    linesOk (items.map fun it => if it.product.id == pid then f it else it) := by
  constructor
  · intro item hmem
    obtain ⟨a, ha, rfl⟩ := List.mem_map.mp hmem
    by_cases hc : (a.product.id == pid) = true
    · simpa [hc] using hq a (h.1 a ha)
    · simp only [Bool.not_eq_true] at hc
      simpa [hc] using h.1 a ha
  · have hids : ((items.map fun it => if it.product.id == pid then f it else it).map
        (fun item => item.product.id)) = items.map (fun item => item.product.id) := by
      rw [List.map_map]
      apply List.map_congr_left
      intro a _
      by_cases hc : (a.product.id == pid) = true
      · have hc2 : a.product.id = pid := by simpa using hc
        simp [hc2, hprod]
      · have hc2 : a.product.id ≠ pid := by simpa using hc
        simp [hc2]
    rw [hids]
    exact h.2

theorem linesOk_append_new (items : List CartItem) (P : Product)
    (h : linesOk items) (hnot : ∀ x ∈ items, x.product.id ≠ P.id) :
    linesOk (items ++ [{ product := P, quantity := 1 }]) := by
  constructor
  · intro item hmem
    rcases List.mem_append.mp hmem with hl | hr
    · exact h.1 item hl
    · simp only [List.mem_singleton] at hr
      simp [hr]
  · rw [List.map_append, List.nodup_append]
    refine ⟨h.2, List.nodup_singleton _, ?_⟩
    intro a ha hb
    simp only [List.map_cons, List.map_nil, List.mem_singleton] at hb
    obtain ⟨x, hx, hxa⟩ := List.mem_map.mp ha
    exact hnot x hx (by rw [hxa, hb])

theorem linesOk_applyCall {s : CartState} (call : CartCall)
    (h : linesOk s.items) : linesOk (applyCall s call).items := by
  cases call with
  | addItem p =>
      by_cases hs : p.inStock = true
      · simp only [applyCall, addItem, hs, Bool.not_true]
        cases hfind : s.items.find? (fun item => item.product.id == p.id) with
        | some found =>
            simp only [cartReducer, hfind, withItems]
            exact linesOk_map_ite s.items p.id
              (fun it => { it with quantity := it.quantity + 1 })
              (fun it => rfl)
              (fun it hit => by show 1 ≤ it.quantity + 1; omega) h
        | none =>
            simp only [cartReducer, hfind, withItems]
            refine linesOk_append_new s.items p h ?_
            rw [List.find?_eq_none] at hfind
            intro x hx hxeq
            exact hfind x hx (by simp [hxeq])
      · simp only [Bool.not_eq_true] at hs
        simpa [applyCall, addItem, hs] using h
  | removeItem productId =>
      simp only [applyCall, removeItem, cartReducer, withItems]
      exact linesOk_filter s.items _ h
  | updateQuantity productId q =>
      by_cases hneg : q < 0
      · simpa [applyCall, updateQuantity, hneg] using h
      · by_cases hle : q ≤ 0
        · simp only [applyCall, updateQuantity, hneg, if_false, cartReducer, hle,
            if_true, withItems]
          exact linesOk_filter s.items _ h
        · simp only [applyCall, updateQuantity, hneg, if_false, cartReducer, hle,
            withItems]
          exact linesOk_map_ite s.items productId
            (fun it => { it with quantity := q })
            (fun it => rfl) (fun it hit => by show 1 ≤ q; omega) h
  | clearCart =>
      simp [applyCall, clearCart, cartReducer, linesOk]

/-- The states the store can actually be in: the initial empty state,
anything reachable from a reachable state by a public mutating call or
by `SET_LOADING`, and anything adopted by hydration (`LOAD_CART`) from
a snapshot the store itself persisted — the save effect runs only on
non-loading states and writes that state's own serialized lines, which
deserialize back exactly. -/
inductive Reachable : CartState → Prop
  | init : Reachable initialState
  | step {s : CartState} (call : CartCall) :
      Reachable s → Reachable (applyCall s call)
  | ready {s : CartState} (b : Bool) :
      Reachable s → Reachable (cartReducer s (CartAction.setLoading b))
  | hydrated {s t : CartState} {payload : List CartItem} :
      Reachable s → s.isLoading = false → Reachable t →
      decodeCartItems (encodeCartItems s.items) = some payload →
      Reachable (cartReducer t (CartAction.loadCart payload))

/-- Claim C2: in every state the store can reach — including a state
adopted by hydration from a persisted snapshot — every line has
quantity at least 1 and the product identifiers of the lines are
pairwise distinct. -/
theorem reachable_linesOk (s : CartState) (h : Reachable s) :
    linesOk s.items := by
  induction h with
  | init => exact ⟨by simp [initialState], by simp [initialState]⟩
  | step call _ ih => exact linesOk_applyCall call ih
  | ready b _ ih => simpa [cartReducer] using ih
  | hydrated _ _ _ hdec ihs _ =>
      rw [decodeCartItems_encode] at hdec
      obtain rfl := (Option.some_inj.mp hdec)
      simpa [cartReducer] using ihs

theorem reachable_linesOk_witness :
    Reachable initialState ∧ linesOk initialState.items :=
  ⟨Reachable.init, reachable_linesOk initialState Reachable.init⟩
